import Mathlib

/-
Shallow embedding of the Simple_ADXL345_Arduino driver (src/ADXL345.cpp).

The driver talks to an ADXL345 accelerometer over either I2C (the Arduino
`Wire` object) or SPI (the Arduino `SPI` object plus a chip-select GPIO).
We embed the driver functions statement by statement.  The Arduino bus
primitives (`digitalWrite`, `SPI.transfer`, `Wire.beginTransmission`,
`Wire.write`, `Wire.endTransmission`, `Wire.requestFrom`, `Wire.read`,
`Wire.available`) are modelled against a simulated ADXL345 register file:

  * every primitive call is logged in an event trace, and
  * a simulated ADXL345 device reacts to the calls the way the real chip
    decodes them.  Over SPI the command byte carries the read flag in bit 7,
    the multiple-byte flag in bit 6 and a 6-bit register address in the low
    bits; the device only responds while its chip-select input is low.
    Over I2C the device is selected by the 7-bit target address 0x53; the
    first payload byte of a write sets the device register pointer and the
    remaining payload bytes are stored at consecutive addresses; a read
    request returns consecutive registers starting at the pointer.

All machine integers are natural numbers reduced modulo 2^8 where the C++
types (`uint8_t`) truncate.
-/

namespace ADXLSim

/-- Arduino pin level LOW. -/
def LOW : Nat := 0

/-- Arduino pin level HIGH. -/
def HIGH : Nat := 1

/-- Arduino pin direction OUTPUT. -/
def OUTPUT : Nat := 1

/-- SPI clock mode 3 (polarity 1, phase 1), an opaque tag in the model. -/
def SPI_MODE3 : Nat := 3

/-- `#define ADXL345_I2C_ADDRESS 0x53` - the fixed 7-bit I2C device address. -/
def ADXL345_I2C_ADDRESS : Nat := 0x53

/-- One logged call to an Arduino bus primitive. -/
inductive BusEvent where
  | pinModeEv (pin mode : Nat)
  | digWrite (pin level : Nat)
  | spiBeginEv
  | spiSetModeEv (m : Nat)
  | spiXfer (b : Nat)
  | wireBeginBusEv
  | wireBeginTx (target : Nat)
  | wireWriteEv (b : Nat)
  | wireEndTx (stop : Bool)
  | wireRequestEv (target n : Nat) (stop : Bool)
  | wireReadEv
  deriving DecidableEq, Repr

/-- The SPI command byte as decoded by the simulated ADXL345: bit 7 is the
read flag, bit 6 the multiple-byte flag, the low 6 bits the register
address. -/
structure SpiCmd where
  base : Nat
  rdFlag : Bool
  mb : Bool
  deriving DecidableEq, Repr

/-- State of the simulation: the device register file, the GPIO pin levels,
the wiring of the simulated device's chip-select input, the SPI slave's
in-transaction decoder state, and the Wire library's transmit buffer,
receive queue and the device's I2C register pointer, plus the event trace. -/
structure SimState where
  regs : Nat → Nat
  pins : Nat → Nat
  devCsPin : Nat
  spiCmd : Option SpiCmd
  spiIdx : Nat
  i2cBuf : Option (Nat × List Nat)
  i2cQueue : List Nat
  i2cPtr : Nat
  trace : List BusEvent

/-- Point update of a finite map (used for the register file and the GPIO
pin levels). -/
def updFn (f : Nat → Nat) (k v : Nat) : Nat → Nat :=
  fun x => if x = k then v else f x

/-- `pinMode(pin, mode)` - logged only. -/
def pinModeF (s : SimState) (pin mode : Nat) : SimState :=
  { s with trace := s.trace ++ [.pinModeEv pin mode] }

/-- `SPI.begin()` - logged only. -/
def spiBegin (s : SimState) : SimState :=
  { s with trace := s.trace ++ [.spiBeginEv] }

/-- `SPI.setDataMode(m)` - logged only. -/
def spiSetDataMode (s : SimState) (m : Nat) : SimState :=
  { s with trace := s.trace ++ [.spiSetModeEv m] }

/-- `Wire.begin()` - logged only. -/
def wireBeginBus (s : SimState) : SimState :=
  { s with trace := s.trace ++ [.wireBeginBusEv] }

/-- `digitalWrite(pin, level)`: log the call and set the pin level.  When the
written pin is the simulated device's chip-select input, the device's SPI
transaction decoder is reset (a chip-select edge starts a fresh
transaction). -/
def digitalWrite (s : SimState) (pin level : Nat) : SimState :=
  let s1 := { s with
    trace := s.trace ++ [.digWrite pin level],
    pins := updFn s.pins pin level }
  if pin = s1.devCsPin then { s1 with spiCmd := none, spiIdx := 0 } else s1

/-- `SPI.transfer(b)`: log the call; while the simulated device's chip-select
input is low the device decodes the traffic.  The first byte of a
transaction is the command byte (bit 7 read flag, bit 6 multiple-byte flag,
low 6 bits register address); each following byte is a data phase: in read
mode the device answers with the addressed register (auto-incrementing in
multiple-byte mode), in write mode it stores the received byte there.  All
call sites of the driver pass byte values, so no truncation is applied
here. -/
def spiTransfer (s : SimState) (b : Nat) : Nat × SimState :=
  let s1 := { s with trace := s.trace ++ [.spiXfer b] }
  if s1.pins s1.devCsPin = LOW then
    match s1.spiCmd with
    | none =>
        (0, { s1 with spiCmd := some ⟨b % 64, b.testBit 7, b.testBit 6⟩, spiIdx := 0 })
    | some c =>
        let a := (c.base + (if c.mb then s1.spiIdx else 0)) % 64
        if c.rdFlag then
          (s1.regs a % 256, { s1 with spiIdx := s1.spiIdx + 1 })
        else
          (0, { s1 with regs := updFn s1.regs a b, spiIdx := s1.spiIdx + 1 })
  else
    (0, s1)

/-- `Wire.beginTransmission(target)`: open the transmit buffer. -/
def wireBeginTransmission (s : SimState) (target : Nat) : SimState :=
  { s with trace := s.trace ++ [.wireBeginTx target], i2cBuf := some (target, []) }

/-- `Wire.write(b)`: append a byte to the open transmit buffer. -/
def wireWrite (s : SimState) (b : Nat) : SimState :=
  { s with
    trace := s.trace ++ [.wireWriteEv b],
    i2cBuf := match s.i2cBuf with
      | some (t, bs) => some (t, bs ++ [b])
      | none => none }

/-- The simulated device consumes the data bytes of an I2C write: they are
stored at consecutive register addresses. -/
def writeSeq : (Nat → Nat) → Nat → List Nat → (Nat → Nat)
  | regs, _, [] => regs
  | regs, a, d :: ds => writeSeq (updFn regs (a % 256) d) (a + 1) ds

/-- `Wire.endTransmission(stop)`: log the call and deliver the buffered
payload.  If the transaction targets the simulated ADXL345 (address 0x53),
the first payload byte sets the device's register pointer and any further
bytes are stored at consecutive addresses, leaving the pointer just past
them.  The `stop` flag (false = repeated start) is recorded in the trace. -/
def wireEndTransmission (s : SimState) (stop : Bool) : SimState :=
  let s1 := { s with trace := s.trace ++ [BusEvent.wireEndTx stop] }
  match s1.i2cBuf with
  | some (t, bs) =>
      if t = ADXL345_I2C_ADDRESS then
        match bs with
        | [] => { s1 with i2cBuf := none }
        | a :: ds =>
            { s1 with
              i2cBuf := none,
              regs := writeSeq s1.regs a ds,
              i2cPtr := (a + ds.length) % 256 }
      else { s1 with i2cBuf := none }
  | none => s1

/-- `Wire.requestFrom(target, n, stop)`: log the call; if the simulated
ADXL345 is addressed it answers with `n` consecutive registers starting at
its register pointer, which advances past them; the bytes land in the Wire
receive queue (replacing any stale content). -/
def wireRequestFrom (s : SimState) (target n : Nat) (stop : Bool) : SimState :=
  let s1 := { s with trace := s.trace ++ [BusEvent.wireRequestEv target n stop] }
  if target = ADXL345_I2C_ADDRESS then
    { s1 with
      i2cQueue := (List.range n).map (fun i => s1.regs ((s1.i2cPtr + i) % 256) % 256),
      i2cPtr := (s1.i2cPtr + n) % 256 }
  else
    { s1 with i2cQueue := [] }

/-- `Wire.available()`: the receive queue is non-empty. -/
def wireAvailable (s : SimState) : Bool :=
  !s.i2cQueue.isEmpty

/-- `Wire.read()`: log the call and pop the receive queue.  On an empty
queue `Wire.read()` yields -1, which is 255 after the `uint8_t`
conversions at the call sites. -/
def wireRead (s : SimState) : Nat × SimState :=
  let s1 := { s with trace := s.trace ++ [BusEvent.wireReadEv] }
  match s1.i2cQueue with
  | [] => (255, s1)
  | b :: rest => (b, { s1 with i2cQueue := rest })

/-- The `while (Wire.available()) { *pBuffer++ = (uint8_t) Wire.read(); }`
loop of `ADXL345::readRegs`.  Each iteration pops one byte off the receive
queue, so the queue length bounds the iteration count; the fuel argument is
instantiated with that length at the call site. -/
def wireDrain : Nat → SimState → List Nat × SimState
  | 0, s => ([], s)
  | fuel + 1, s =>
      if wireAvailable s then
        let r := wireRead s
        let rest := wireDrain fuel r.2
        (r.1 :: rest.1, rest.2)
      else
        ([], s)

/-- The `for (uint8_t i = 0; i < size; i++) { *pBuffer++ = SPI.transfer(0x00); }`
loop of `ADXL345::readRegs`, collecting the received bytes in order. -/
def spiReadLoop : Nat → SimState → List Nat × SimState
  | 0, s => ([], s)
  | n + 1, s =>
      let r := spiTransfer s 0x00
      let rest := spiReadLoop n r.2
      (r.1 :: rest.1, rest.2)

/-- The bytes a selected simulated device in read mode answers to `n`
successive data-phase transfers, starting at data-phase index `k`:
register `base` (auto-incremented in multiple-byte mode), reduced to a
byte. -/
def spiOut (regs : Nat → Nat) (base : Nat) (mb : Bool) : Nat → Nat → List Nat
  | _, 0 => []
  | k, n + 1 =>
      regs ((base + (if mb then k else 0)) % 64) % 256 :: spiOut regs base mb (k + 1) n

/-- Modelled from the spec: the communication-mode enumeration
`ADXL345_COMM_t` is declared in `ADXL345.h`, which is not part of the
sources; the spec lists the two enumerators (I2C, SPI).  As a C++ unscoped
enumeration the type can also hold out-of-range integer values (a corrupted
or casted mode), represented by the extra constructor. -/
inductive ADXL345_COMM_t where
  | ADXL345_COMM_I2C
  | ADXL345_COMM_SPI
  | otherValue (v : Nat)
  deriving DecidableEq, Repr

/-- The driver handle: the two data members of the C++ class. -/
structure ADXL345 where
  communicationType : ADXL345_COMM_t
  csPinField : Nat
  deriving DecidableEq, Repr

/-- `ADXL345::ADXL345(ADXL345_COMM_t commType, uint8_t csPin = 0)`: store the
mode and the chip-select pin, then initialize the selected bus (SPI: begin,
clock mode 3, chip-select pin as output driven high; I2C: begin). -/
def ADXL345.construct (commType : ADXL345_COMM_t) (csPin : Nat) (s : SimState) :
    ADXL345 × SimState :=
  let csPin := csPin % 256
  let dev : ADXL345 := ⟨commType, csPin⟩
  if commType = ADXL345_COMM_t.ADXL345_COMM_SPI then
    let s := spiBegin s
    let s := spiSetDataMode s SPI_MODE3
    let s := pinModeF s csPin OUTPUT
    let s := digitalWrite s csPin HIGH
    (dev, s)
  else if commType = ADXL345_COMM_t.ADXL345_COMM_I2C then
    (dev, wireBeginBus s)
  else
    (dev, s)

/-- `void ADXL345::writeReg(uint8_t regAddr, uint8_t data)`. -/
def ADXL345.writeReg (dev : ADXL345) (s : SimState) (regAddr data : Nat) :
    ADXL345 × SimState :=
  let regAddr := regAddr % 256
  let data := data % 256
  if dev.communicationType = ADXL345_COMM_t.ADXL345_COMM_I2C then
    let s := wireBeginTransmission s ADXL345_I2C_ADDRESS
    let s := wireWrite s regAddr
    let s := wireWrite s data
    let s := wireEndTransmission s true
    (dev, s)
  else if dev.communicationType = ADXL345_COMM_t.ADXL345_COMM_SPI then
    let s := digitalWrite s dev.csPinField LOW
    let s := (spiTransfer s regAddr).2
    let s := (spiTransfer s data).2
    let s := digitalWrite s dev.csPinField HIGH
    (dev, s)
  else
    (dev, s)

/-- `uint8_t ADXL345::readReg(uint8_t regAddr)`.  The local `uint8_t buffer`
is uninitialized in the source; the extra argument `junk` stands for its
indeterminate initial value, which is what the function returns when
neither branch of the mode dispatch runs.  Note the SPI branch reproduces
the source exactly: the final `digitalWrite(..., HIGH)` is issued on pin
`spiAddress`, not on the stored chip-select pin. -/
def ADXL345.readReg (dev : ADXL345) (s : SimState) (regAddr junk : Nat) :
    ADXL345 × SimState × Nat :=
  let regAddr := regAddr % 256
  let buffer := junk % 256
  if dev.communicationType = ADXL345_COMM_t.ADXL345_COMM_I2C then
    let s := wireBeginTransmission s ADXL345_I2C_ADDRESS
    let s := wireWrite s regAddr
    let s := wireEndTransmission s false
    let s := wireRequestFrom s ADXL345_I2C_ADDRESS 1 true
    let r := wireRead s
    (dev, r.2, r.1)
  else if dev.communicationType = ADXL345_COMM_t.ADXL345_COMM_SPI then
    let spiAddress := 0x80 ||| regAddr
    let s := digitalWrite s dev.csPinField LOW
    let s := (spiTransfer s spiAddress).2
    let r := spiTransfer s 0x00
    let s := digitalWrite r.2 spiAddress HIGH
    (dev, s, r.1)
  else
    (dev, s, buffer)

/-- `void ADXL345::readRegs(uint8_t regAddr, uint8_t *pBuffer, uint8_t size)`.
The out-parameter is modelled by the returned byte list (the bytes stored
through `pBuffer`, in order); `pBufferNull` models passing a NULL pointer,
on which the function returns immediately. -/
def ADXL345.readRegs (dev : ADXL345) (s : SimState) (regAddr : Nat)
    (pBufferNull : Bool) (size : Nat) : ADXL345 × SimState × List Nat :=
  let regAddr := regAddr % 256
  let size := size % 256
  if pBufferNull then
    (dev, s, [])
  else if dev.communicationType = ADXL345_COMM_t.ADXL345_COMM_I2C then
    let s := wireBeginTransmission s ADXL345_I2C_ADDRESS
    let s := wireWrite s regAddr
    let s := wireEndTransmission s true
    let s := wireRequestFrom s ADXL345_I2C_ADDRESS size true
    let r := wireDrain s.i2cQueue.length s
    (dev, r.2, r.1)
  else if dev.communicationType = ADXL345_COMM_t.ADXL345_COMM_SPI then
    let spiAddress := 0x80 ||| regAddr
    let spiAddress := if size > 1 then spiAddress ||| 0x40 else spiAddress
    let s := digitalWrite s dev.csPinField LOW
    let s := (spiTransfer s spiAddress).2
    let r := spiReadLoop size s
    let s := digitalWrite r.2 dev.csPinField HIGH
    (dev, s, r.1)
  else
    (dev, s, [])

/-- A fresh simulation state: register file as given, all pins high (idle),
the simulated device's chip-select input wired to `devCs`, device and Wire
state quiescent, empty trace. -/
def mkSimState (regs : Nat → Nat) (devCs : Nat) : SimState :=
  { regs := regs
    pins := fun _ => HIGH
    devCsPin := devCs
    spiCmd := none
    spiIdx := 0
    i2cBuf := none
    i2cQueue := []
    i2cPtr := 0
    trace := [] }

/-- The data bytes shifted out on the SPI bus, extracted from a trace. -/
def sentSpi (tr : List BusEvent) : List Nat :=
  tr.filterMap (fun e => match e with | .spiXfer b => some b | _ => none)

/-! ### Arithmetic and bit-level helper lemmas -/

@[simp] theorem mod256_mod256 (x : Nat) : x % 256 % 256 = x % 256 :=
  Nat.mod_mod_of_dvd x (by norm_num)

@[simp] theorem mod256_mod64 (x : Nat) : x % 256 % 64 = x % 64 :=
  Nat.mod_mod_of_dvd x (by norm_num)

@[simp] theorem mod64_mod64 (x : Nat) : x % 64 % 64 = x % 64 :=
  Nat.mod_mod_of_dvd x (by norm_num)

theorem testBit7_lor128 (a : Nat) : (0x80 ||| a).testBit 7 = true := by
  rw [Nat.testBit_lor]
  simp [show Nat.testBit 0x80 7 = true by decide]

theorem testBit6_lor128 (a : Nat) : (0x80 ||| a).testBit 6 = a.testBit 6 := by
  rw [Nat.testBit_lor]
  simp [show Nat.testBit 0x80 6 = false by decide]

theorem testBit7_lor64 (a : Nat) : (a ||| 0x40).testBit 7 = a.testBit 7 := by
  rw [Nat.testBit_lor]
  simp [show Nat.testBit 0x40 7 = false by decide]

theorem testBit6_lor64 (a : Nat) : (a ||| 0x40).testBit 6 = true := by
  rw [Nat.testBit_lor]
  simp [show Nat.testBit 0x40 6 = true by decide]

theorem testBit7_of_lt {a : Nat} (h : a < 128) : a.testBit 7 = false :=
  Nat.testBit_lt_two_pow (by norm_num [h])

theorem testBit6_of_lt {a : Nat} (h : a < 64) : a.testBit 6 = false :=
  Nat.testBit_lt_two_pow (by norm_num [h])

theorem lor128_mod64 (a : Nat) : (0x80 ||| a) % 64 = a % 64 := by
  have h64 : (64 : Nat) = 2 ^ 6 := by norm_num
  refine Nat.eq_of_testBit_eq fun i => ?_
  rw [h64]
  simp only [Nat.testBit_mod_two_pow, Nat.testBit_lor]
  by_cases hi : i < 6
  · have h128 : Nat.testBit 0x80 i = false := by
      have : (0x80 : Nat) = 2 ^ 7 := by norm_num
      rw [this, Nat.testBit_two_pow]
      simp only [decide_eq_false_iff_not]
      omega
    simp [hi, h128]
  · simp [hi]

theorem lor64_mod64 (a : Nat) : (a ||| 0x40) % 64 = a % 64 := by
  have h64 : (64 : Nat) = 2 ^ 6 := by norm_num
  refine Nat.eq_of_testBit_eq fun i => ?_
  rw [h64]
  simp only [Nat.testBit_mod_two_pow, Nat.testBit_lor]
  by_cases hi : i < 6
  · have h40 : Nat.testBit 0x40 i = false := by
      have : (0x40 : Nat) = 2 ^ 6 := by norm_num
      rw [this, Nat.testBit_two_pow]
      simp only [decide_eq_false_iff_not]
      omega
    simp [hi, h40]
  · simp [hi]

/-! ### Closed forms for the two read loops -/

/-- Running the while-available drain loop with fuel equal to the receive
queue length pops the whole queue, logging one read event per byte. -/
theorem wireDrain_spec (q : List Nat) : ∀ s : SimState, s.i2cQueue = q →
    wireDrain q.length s =
      (q, { s with
              i2cQueue := [],
              trace := s.trace ++ List.replicate q.length BusEvent.wireReadEv }) := by
  induction q with
  | nil =>
      intro s h
      rcases s with ⟨r, p, d, c, i, bu, qq, pt, tr⟩
      obtain rfl : qq = [] := h
      simp [wireDrain]
  | cons b rest ih =>
      intro s h
      rcases s with ⟨r, p, d, c, i, bu, qq, pt, tr⟩
      obtain rfl : qq = b :: rest := h
      have hstep := ih ⟨r, p, d, c, i, bu, rest, pt, tr ++ [BusEvent.wireReadEv]⟩ rfl
      simp only [List.length_cons, wireDrain, wireAvailable, wireRead]
      simp only [List.isEmpty_cons, Bool.not_false, if_true]
      rw [hstep]
      simp [List.replicate_succ]

/-- Running the SPI for-loop while the simulated device is selected and
parked in read mode yields the device's answer bytes and advances the
data-phase index, logging one dummy transfer per byte. -/
theorem spiLoop_spec (n : Nat) : ∀ (s : SimState) (base : Nat) (mb : Bool) (k : Nat),
    s.pins s.devCsPin = LOW → s.spiCmd = some ⟨base, true, mb⟩ → s.spiIdx = k →
    spiReadLoop n s =
      (spiOut s.regs base mb k n,
       { s with
           spiIdx := k + n,
           trace := s.trace ++ List.replicate n (BusEvent.spiXfer 0) }) := by
  induction n with
  | zero =>
      intro s base mb k hp hc hk
      rcases s with ⟨r, p, d, c, i, bu, qq, pt, tr⟩
      simp only [SimState.spiIdx] at hk
      subst hk
      simp [spiReadLoop, spiOut]
  | succ n ih =>
      intro s base mb k hp hc hk
      rcases s with ⟨r, p, d, c, i, bu, qq, pt, tr⟩
      simp only [SimState.spiCmd] at hc
      simp only [SimState.spiIdx] at hk
      simp only [SimState.pins, SimState.devCsPin] at hp
      subst hc hk
      have h1 : spiTransfer ⟨r, p, d, some ⟨base, true, mb⟩, i, bu, qq, pt, tr⟩ 0x00 =
          (r ((base + if mb then i else 0) % 64) % 256,
           ⟨r, p, d, some ⟨base, true, mb⟩, i + 1, bu, qq, pt,
            tr ++ [BusEvent.spiXfer 0]⟩) := by
        simp [spiTransfer, hp]
      have hstep := ih ⟨r, p, d, some ⟨base, true, mb⟩, i + 1, bu, qq, pt,
        tr ++ [BusEvent.spiXfer 0]⟩ base mb (i + 1) hp rfl rfl
      simp only [spiReadLoop, h1, hstep]
      simp [spiOut, List.replicate_succ]
      omega

/-! ### Projections of `digitalWrite` -/

@[simp] theorem digitalWrite_trace (s : SimState) (pin level : Nat) :
    (digitalWrite s pin level).trace = s.trace ++ [BusEvent.digWrite pin level] := by
  simp only [digitalWrite]
  split <;> rfl

@[simp] theorem digitalWrite_pins (s : SimState) (pin level : Nat) :
    (digitalWrite s pin level).pins = updFn s.pins pin level := by
  simp only [digitalWrite]
  split <;> rfl

@[simp] theorem digitalWrite_regs (s : SimState) (pin level : Nat) :
    (digitalWrite s pin level).regs = s.regs := by
  simp only [digitalWrite]
  split <;> rfl

@[simp] theorem digitalWrite_devCsPin (s : SimState) (pin level : Nat) :
    (digitalWrite s pin level).devCsPin = s.devCsPin := by
  simp only [digitalWrite]
  split <;> rfl

/-! ### Closed forms for the driver operations, one per mode -/

/-- `writeReg` in I2C mode: one transaction to 0x53 with the two payload
bytes, which the simulated device stores as a write of `data` to register
`regAddr`. -/
theorem writeReg_i2c (dev : ADXL345) (s : SimState) (a v : Nat)
    (hm : dev.communicationType = ADXL345_COMM_t.ADXL345_COMM_I2C) :
    dev.writeReg s a v =
      (dev, { s with
        trace := s.trace ++ [BusEvent.wireBeginTx 0x53, BusEvent.wireWriteEv (a % 256),
          BusEvent.wireWriteEv (v % 256), BusEvent.wireEndTx true],
        i2cBuf := none,
        regs := updFn s.regs (a % 256) (v % 256),
        i2cPtr := (a % 256 + 1) % 256 }) := by
  rcases dev with ⟨ct, cs⟩
  simp only [ADXL345.communicationType] at hm
  subst hm
  rcases s with ⟨r, p, d, c, i, bu, qq, pt, tr⟩
  simp [ADXL345.writeReg, wireBeginTransmission, wireWrite, wireEndTransmission,
    writeSeq, ADXL345_I2C_ADDRESS]

/-- `readReg` in I2C mode: address write with repeated start, one-byte
request, and the device's answer - the content of register `regAddr`. -/
theorem readReg_i2c (dev : ADXL345) (s : SimState) (a junk : Nat)
    (hm : dev.communicationType = ADXL345_COMM_t.ADXL345_COMM_I2C) :
    dev.readReg s a junk =
      (dev, { s with
        trace := s.trace ++ [BusEvent.wireBeginTx 0x53, BusEvent.wireWriteEv (a % 256),
          BusEvent.wireEndTx false, BusEvent.wireRequestEv 0x53 1 true, BusEvent.wireReadEv],
        i2cBuf := none,
        i2cQueue := [],
        i2cPtr := (a % 256 + 1) % 256 }, s.regs (a % 256) % 256) := by
  rcases dev with ⟨ct, cs⟩
  simp only [ADXL345.communicationType] at hm
  subst hm
  rcases s with ⟨r, p, d, c, i, bu, qq, pt, tr⟩
  simp [ADXL345.readReg, wireBeginTransmission, wireWrite, wireEndTransmission,
    wireRequestFrom, wireRead, writeSeq, ADXL345_I2C_ADDRESS, List.range_succ]

/-- `writeReg` in SPI mode, for a register address whose bit 7 is clear (so
the simulated device decodes the command byte as a write): the device
stores the byte at the 6-bit register address. -/
theorem writeReg_spi (dev : ADXL345) (s : SimState) (a v : Nat)
    (hm : dev.communicationType = ADXL345_COMM_t.ADXL345_COMM_SPI)
    (hcs : s.devCsPin = dev.csPinField)
    (hb : (a % 256).testBit 7 = false) :
    dev.writeReg s a v =
      (dev, { s with
        pins := updFn (updFn s.pins dev.csPinField LOW) dev.csPinField HIGH,
        spiCmd := none,
        spiIdx := 0,
        regs := updFn s.regs (a % 64) (v % 256),
        trace := s.trace ++ [BusEvent.digWrite dev.csPinField LOW, BusEvent.spiXfer (a % 256),
          BusEvent.spiXfer (v % 256), BusEvent.digWrite dev.csPinField HIGH] }) := by
  rcases dev with ⟨ct, cs⟩
  simp only [ADXL345.communicationType] at hm
  simp only [ADXL345.csPinField] at hcs
  subst hm
  rcases s with ⟨r, p, d, c, i, bu, qq, pt, tr⟩
  simp only [SimState.devCsPin] at hcs
  subst hcs
  simp [ADXL345.writeReg, digitalWrite, spiTransfer, updFn, hb, LOW, HIGH]

/-- `readReg` in SPI mode: the driver returns the content of the 6-bit
register address; the trace shows the read-encoded address byte, the dummy
transfer, and a final HIGH write on pin `0x80 ||| regAddr` (not on the
stored chip-select pin). -/
theorem readReg_spi (dev : ADXL345) (s : SimState) (a junk : Nat)
    (hm : dev.communicationType = ADXL345_COMM_t.ADXL345_COMM_SPI)
    (hcs : s.devCsPin = dev.csPinField) :
    (dev.readReg s a junk).1 = dev ∧
    (dev.readReg s a junk).2.2 = s.regs (a % 64) % 256 ∧
    (dev.readReg s a junk).2.1.trace = s.trace ++ [BusEvent.digWrite dev.csPinField LOW,
      BusEvent.spiXfer (0x80 ||| (a % 256)), BusEvent.spiXfer 0,
      BusEvent.digWrite (0x80 ||| (a % 256)) HIGH] ∧
    (dev.readReg s a junk).2.1.pins
      = updFn (updFn s.pins dev.csPinField LOW) (0x80 ||| (a % 256)) HIGH := by
  rcases dev with ⟨ct, cs⟩
  simp only [ADXL345.communicationType] at hm
  simp only [ADXL345.csPinField] at hcs
  subst hm
  rcases s with ⟨r, p, d, c, i, bu, qq, pt, tr⟩
  simp only [SimState.devCsPin] at hcs
  subst hcs
  simp [ADXL345.readReg, digitalWrite, spiTransfer, updFn, LOW, HIGH,
    lor128_mod64, show Nat.testBit 128 7 = true by decide,
    show Nat.testBit 128 6 = false by decide]
  refine ⟨?_, ?_⟩ <;> split <;> rfl

/-- `readRegs` in I2C mode with a valid buffer: one address-only transaction,
one `size`-byte request, and the drain loop stores the device's answer -
registers `regAddr`, `regAddr+1`, ... in ascending order. -/
theorem readRegs_i2c (dev : ADXL345) (s : SimState) (a size : Nat)
    (hm : dev.communicationType = ADXL345_COMM_t.ADXL345_COMM_I2C)
    (hsize : size < 256) :
    dev.readRegs s a false size =
      (dev, { s with
        trace := s.trace ++ [BusEvent.wireBeginTx 0x53, BusEvent.wireWriteEv (a % 256),
          BusEvent.wireEndTx true, BusEvent.wireRequestEv 0x53 size true]
          ++ List.replicate size BusEvent.wireReadEv,
        i2cBuf := none,
        i2cQueue := [],
        i2cPtr := (a + size) % 256 },
       (List.range size).map (fun j => s.regs ((a + j) % 256) % 256)) := by
  rcases dev with ⟨ct, cs⟩
  simp only [ADXL345.communicationType] at hm
  subst hm
  rcases s with ⟨r, p, d, c, i, bu, qq, pt, tr⟩
  have hsz : size % 256 = size := Nat.mod_eq_of_lt hsize
  have hdrain := wireDrain_spec
    ((List.range size).map (fun j => r ((a + j) % 256) % 256))
    ⟨r, p, d, c, i, none,
      (List.range size).map (fun j => r ((a + j) % 256) % 256),
      (a + size) % 256,
      tr ++ [BusEvent.wireBeginTx 0x53, BusEvent.wireWriteEv (a % 256),
        BusEvent.wireEndTx true, BusEvent.wireRequestEv 0x53 size true]⟩ rfl
  simp only [List.length_map, List.length_range] at hdrain
  simp [ADXL345.readRegs, wireBeginTransmission, wireWrite, wireEndTransmission,
    wireRequestFrom, writeSeq, ADXL345_I2C_ADDRESS, hsz, hdrain]

/-- `readRegs` in SPI mode with a valid buffer: the command byte is the
read-encoded address (plus the multiple-byte bit when `size > 1`), and the
driver collects the device's answer for the 6-bit register address. -/
theorem readRegs_spi (dev : ADXL345) (s : SimState) (a size : Nat)
    (hm : dev.communicationType = ADXL345_COMM_t.ADXL345_COMM_SPI)
    (hcs : s.devCsPin = dev.csPinField)
    (hsize : size < 256) :
    dev.readRegs s a false size =
      (dev, { s with
        pins := updFn (updFn s.pins dev.csPinField LOW) dev.csPinField HIGH,
        spiCmd := none,
        spiIdx := 0,
        trace := s.trace ++ [BusEvent.digWrite dev.csPinField LOW,
          BusEvent.spiXfer (if size > 1 then (0x80 ||| (a % 256)) ||| 0x40
            else 0x80 ||| (a % 256))]
          ++ List.replicate size (BusEvent.spiXfer 0)
          ++ [BusEvent.digWrite dev.csPinField HIGH] },
       spiOut s.regs (a % 64) (if size > 1 then true else (a % 256).testBit 6) 0 size) := by
  rcases dev with ⟨ct, cs⟩
  simp only [ADXL345.communicationType] at hm
  simp only [ADXL345.csPinField] at hcs
  subst hm
  rcases s with ⟨r, p, d, c, i, bu, qq, pt, tr⟩
  simp only [SimState.devCsPin] at hcs
  subst hcs
  have hsz : size % 256 = size := Nat.mod_eq_of_lt hsize
  by_cases hgt : 1 < size
  · have hloop := spiLoop_spec size
      ⟨r, updFn p d 0, d, some ⟨a % 64, true, true⟩, 0, bu, qq, pt,
        tr ++ [BusEvent.digWrite d 0,
          BusEvent.spiXfer ((0x80 ||| (a % 256)) ||| 0x40)]⟩
      (a % 64) true 0 (by simp [updFn, LOW]) rfl rfl
    simp [ADXL345.readRegs, digitalWrite, spiTransfer, updFn, LOW, HIGH, hsz, hgt,
      lor128_mod64, lor64_mod64, hloop,
      show Nat.testBit 64 7 = false by decide, show Nat.testBit 64 6 = true by decide,
      show Nat.testBit 128 7 = true by decide, show Nat.testBit 128 6 = false by decide]
  · have hloop := spiLoop_spec size
      ⟨r, updFn p d 0, d, some ⟨a % 64, true, (a % 256).testBit 6⟩, 0, bu, qq, pt,
        tr ++ [BusEvent.digWrite d 0, BusEvent.spiXfer (0x80 ||| (a % 256))]⟩
      (a % 64) ((a % 256).testBit 6) 0 (by simp [updFn, LOW]) rfl rfl
    simp [ADXL345.readRegs, digitalWrite, spiTransfer, updFn, LOW, HIGH, hsz, hgt,
      lor128_mod64, hloop,
      show Nat.testBit 128 7 = true by decide, show Nat.testBit 128 6 = false by decide]

/-- Closed form of `spiOut` in multiple-byte mode: ascending registers. -/
theorem spiOut_mb (regs : Nat → Nat) (base : Nat) : ∀ (n k : Nat),
    spiOut regs base true k n
      = (List.range n).map (fun i => regs ((base + (k + i)) % 64) % 256) := by
  intro n
  induction n with
  | zero => intro k; simp [spiOut]
  | succ n ih =>
      intro k
      rw [List.range_succ_eq_map, List.map_cons, List.map_map]
      have hf : ((fun i => regs ((base + (k + i)) % 64) % 256) ∘ Nat.succ)
          = fun i => regs ((base + (k + 1 + i)) % 64) % 256 := by
        funext i
        simp only [Function.comp_apply]
        rw [show k + Nat.succ i = k + 1 + i from by omega]
      rw [hf, ← ih (k + 1)]
      simp [spiOut]

/-- Map over `List.range` only depends on the function below the bound. -/
theorem range_map_congr {α : Type} (f g : Nat → α) (n : Nat)
    (h : ∀ i, i < n → f i = g i) : (List.range n).map f = (List.range n).map g :=
  List.map_congr_left fun i hi => h i (List.mem_range.mp hi)

/-! ### The claims -/

/-- C1 (amended): writing a register and then reading the same register back
against the simulated register file returns the written value, in I2C mode
for every 8-bit address, and in SPI mode for every address whose bit 7 is
clear.  (Bit 7 of the SPI command byte is the read flag, so addresses with
bit 7 set cannot be written over SPI - see the counterexample.) -/
theorem c1_write_then_read_roundtrip (dev : ADXL345) (s : SimState) (a v junk : Nat)
    (h : dev.communicationType = ADXL345_COMM_t.ADXL345_COMM_I2C ∨
      (dev.communicationType = ADXL345_COMM_t.ADXL345_COMM_SPI ∧
        s.devCsPin = dev.csPinField ∧ a % 256 < 128)) :
    ((dev.writeReg s a v).1.readReg (dev.writeReg s a v).2 a junk).2.2 = v % 256 := by
  rcases h with hm | ⟨hm, hcs, ha⟩
  · rw [writeReg_i2c dev s a v hm, readReg_i2c dev _ a junk hm]
    simp [updFn]
  · have hb : (a % 256).testBit 7 = false := testBit7_of_lt ha
    rw [writeReg_spi dev s a v hm hcs hb]
    obtain ⟨-, hres, -, -⟩ := readReg_spi dev
      { s with
        pins := updFn (updFn s.pins dev.csPinField LOW) dev.csPinField HIGH,
        spiCmd := none,
        spiIdx := 0,
        regs := updFn s.regs (a % 64) (v % 256),
        trace := s.trace ++ [BusEvent.digWrite dev.csPinField LOW, BusEvent.spiXfer (a % 256),
          BusEvent.spiXfer (v % 256), BusEvent.digWrite dev.csPinField HIGH] }
      a junk hm hcs
    rw [hres]
    simp [updFn]

/-- C1 witness: in I2C mode, writing 7 to register 3 and reading register 3
back yields 7. -/
theorem c1_roundtrip_witness :
    ((ADXL345.writeReg ⟨ADXL345_COMM_t.ADXL345_COMM_I2C, 0⟩ (mkSimState (fun _ => 0) 0) 3 7).1.readReg
      (ADXL345.writeReg ⟨ADXL345_COMM_t.ADXL345_COMM_I2C, 0⟩ (mkSimState (fun _ => 0) 0) 3 7).2
      3 0).2.2 = 7 % 256 :=
  c1_write_then_read_roundtrip _ _ 3 7 0 (Or.inl rfl)

/-- C1 counterexample: in SPI mode, writing 1 to register address 0x80 and
reading address 0x80 back returns 0, not the written 1: the command byte
0x80 has bit 7 set, which the device decodes as a read, so the write never
happens.  This refutes the claim for arbitrary 8-bit addresses. -/
theorem c1_roundtrip_counterexample :
    ((ADXL345.writeReg ⟨ADXL345_COMM_t.ADXL345_COMM_SPI, 10⟩ (mkSimState (fun _ => 0) 10) 128 1).1.readReg
      (ADXL345.writeReg ⟨ADXL345_COMM_t.ADXL345_COMM_SPI, 10⟩ (mkSimState (fun _ => 0) 10) 128 1).2
      128 0).2.2 ≠ 1 := by
  decide

/-- C2 (amended): on every SPI read the first byte shifted out on the bus
has bit 7 set; its bit 6 equals "count > 1 OR bit 6 of the 8-bit register
address".  The claimed equivalence "bit 6 iff count > 1" therefore holds
exactly for addresses with bit 6 clear (all valid ADXL345 registers lie
below 0x40); for larger addresses the address bit leaks into the
multiple-byte flag - see the counterexample. -/
theorem c2_spi_read_address_bits (dev : ADXL345) (s : SimState) (a junk size : Nat)
    (hm : dev.communicationType = ADXL345_COMM_t.ADXL345_COMM_SPI)
    (hcs : s.devCsPin = dev.csPinField) (htr : s.trace = [])
    (hsz1 : 1 ≤ size) (hsize : size < 256) :
    (∃ b, (sentSpi (dev.readReg s a junk).2.1.trace).head? = some b ∧
      b.testBit 7 = true ∧ b.testBit 6 = (a % 256).testBit 6) ∧
    (∃ b, (sentSpi (dev.readRegs s a false size).2.1.trace).head? = some b ∧
      b.testBit 7 = true ∧ b.testBit 6 = (decide (1 < size) || (a % 256).testBit 6)) := by
  constructor
  · obtain ⟨-, -, htrace, -⟩ := readReg_spi dev s a junk hm hcs
    refine ⟨0x80 ||| (a % 256), ?_, testBit7_lor128 _, testBit6_lor128 _⟩
    rw [htrace, htr]
    simp [sentSpi]
  · rw [readRegs_spi dev s a size hm hcs hsize, htr]
    by_cases hgt : 1 < size
    · refine ⟨(0x80 ||| (a % 256)) ||| 0x40, ?_, ?_, ?_⟩
      · simp [sentSpi, hgt]
      · rw [testBit7_lor64]; exact testBit7_lor128 _
      · rw [testBit6_lor64]; simp [hgt]
    · refine ⟨0x80 ||| (a % 256), ?_, testBit7_lor128 _, ?_⟩
      · simp [sentSpi, hgt]
      · rw [testBit6_lor128]; simp [hgt]

/-- C2 witness: a 2-byte SPI read at address 0x32 transmits first byte 0xF2:
bit 7 set, bit 6 set with count 2 > 1; and a single read at 0x32 transmits
0xB2 with bit 6 clear. -/
theorem c2_spi_read_address_bits_witness :
    (∃ b, (sentSpi (ADXL345.readReg ⟨ADXL345_COMM_t.ADXL345_COMM_SPI, 10⟩
        (mkSimState (fun _ => 0) 10) 0x32 0).2.1.trace).head? = some b ∧
      b.testBit 7 = true ∧ b.testBit 6 = (0x32 % 256).testBit 6) ∧
    (∃ b, (sentSpi (ADXL345.readRegs ⟨ADXL345_COMM_t.ADXL345_COMM_SPI, 10⟩
        (mkSimState (fun _ => 0) 10) 0x32 false 2).2.1.trace).head? = some b ∧
      b.testBit 7 = true ∧ b.testBit 6 = (decide (1 < 2) || (0x32 % 256).testBit 6)) :=
  c2_spi_read_address_bits ⟨ADXL345_COMM_t.ADXL345_COMM_SPI, 10⟩
    (mkSimState (fun _ => 0) 10) 0x32 0 2 rfl rfl rfl (by decide) (by decide)

/-- C2 counterexample: a single-register SPI read (count = 1) at address
0x40 transmits the byte 0xC0, whose bit 6 is set - refuting "bit 6 is set
iff count > 1". -/
theorem c2_spi_read_address_bits_counterexample :
    (sentSpi (ADXL345.readReg ⟨ADXL345_COMM_t.ADXL345_COMM_SPI, 10⟩
        (mkSimState (fun _ => 0) 10) 0x40 0).2.1.trace).head? = some 0xC0 ∧
    Nat.testBit 0xC0 6 = true := by
  decide

/-- A handle constructed in SPI mode with chip-select pin 10, wired to a
simulated device on the same pin. -/
def c3setup : ADXL345 × SimState :=
  ADXL345.construct ADXL345_COMM_t.ADXL345_COMM_SPI 10 (mkSimState (fun _ => 0) 10)

/-- C3: evaluation of the code at a failing input.  After construction the
chip-select pin 10 is high; `writeReg` and `readRegs` do restore it high
after their transaction, but `readReg` leaves pin 10 LOW: its final
deassertion is issued on pin 0x80 (the read-encoded address of register 0)
instead of the stored chip-select pin, contradicting the claim that the
stored chip-select line is driven high immediately after the last transfer
of every SPI operation. -/
theorem c3_readReg_leaves_cs_low :
    ((c3setup.1.writeReg c3setup.2 0 0).2.pins 10 = HIGH) ∧
    ((c3setup.1.readRegs c3setup.2 0 false 2).2.1.pins 10 = HIGH) ∧
    ((c3setup.1.readReg c3setup.2 0 0).2.1.pins 10 = LOW) ∧
    ((c3setup.1.readReg c3setup.2 0 0).2.1.trace.getLast?
      = some (BusEvent.digWrite 0x80 HIGH)) := by
  decide

/-- C4: in the SPI path of `readReg` the final HIGH write goes to the pin
numbered `0x80 ||| regAddr` (the read-encoded address value), as the last
trace event shows; consequently, whenever that value differs from the
stored chip-select pin, the chip-select pin is still LOW when `readReg`
returns. -/
theorem c4_readReg_deasserts_wrong_pin (dev : ADXL345) (s : SimState) (a junk : Nat)
    (hm : dev.communicationType = ADXL345_COMM_t.ADXL345_COMM_SPI)
    (hcs : s.devCsPin = dev.csPinField) :
    (dev.readReg s a junk).2.1.trace = s.trace ++ [BusEvent.digWrite dev.csPinField LOW,
      BusEvent.spiXfer (0x80 ||| (a % 256)), BusEvent.spiXfer 0,
      BusEvent.digWrite (0x80 ||| (a % 256)) HIGH] ∧
    (0x80 ||| (a % 256) ≠ dev.csPinField →
      (dev.readReg s a junk).2.1.pins dev.csPinField = LOW) := by
  obtain ⟨-, -, htrace, hpins⟩ := readReg_spi dev s a junk hm hcs
  refine ⟨htrace, fun hne => ?_⟩
  rw [hpins]
  simp [updFn, Ne.symm hne]

/-- C4 witness: for the handle with chip-select pin 10 reading register 0,
the trace ends with a HIGH write on pin 0x80 and pin 10 stays LOW. -/
theorem c4_readReg_deasserts_wrong_pin_witness :
    ((ADXL345.readReg ⟨ADXL345_COMM_t.ADXL345_COMM_SPI, 10⟩ (mkSimState (fun _ => 0) 10)
        0 0).2.1.trace = (mkSimState (fun _ => 0) 10).trace
        ++ [BusEvent.digWrite 10 LOW, BusEvent.spiXfer (0x80 ||| (0 % 256)),
          BusEvent.spiXfer 0, BusEvent.digWrite (0x80 ||| (0 % 256)) HIGH]) ∧
    (0x80 ||| (0 % 256) ≠ 10 →
      (ADXL345.readReg ⟨ADXL345_COMM_t.ADXL345_COMM_SPI, 10⟩ (mkSimState (fun _ => 0) 10)
        0 0).2.1.pins 10 = LOW) :=
  c4_readReg_deasserts_wrong_pin ⟨ADXL345_COMM_t.ADXL345_COMM_SPI, 10⟩
    (mkSimState (fun _ => 0) 10) 0 0 rfl rfl

/-- C5 (amended): with a valid buffer and count ≥ 1, `readRegs` stores
exactly `count` bytes, slot `i` receiving simulated register `address + i`,
provided the requested range fits the device's address space: the full
8-bit space in I2C mode, and the 6-bit space of the SPI command byte in SPI
mode (`address + count ≤ 64`).  For SPI addresses at or above 0x40 the
claim fails - see the counterexample. -/
theorem c5_readRegs_ascending (dev : ADXL345) (s : SimState) (a size : Nat)
    (h : (dev.communicationType = ADXL345_COMM_t.ADXL345_COMM_I2C ∧
            a + size ≤ 256 ∧ size < 256) ∨
         (dev.communicationType = ADXL345_COMM_t.ADXL345_COMM_SPI ∧
            s.devCsPin = dev.csPinField ∧ a + size ≤ 64))
    (hsz1 : 1 ≤ size) :
    (dev.readRegs s a false size).2.2
        = (List.range size).map (fun i => s.regs (a + i) % 256) ∧
    (dev.readRegs s a false size).2.2.length = size := by
  have hmain : (dev.readRegs s a false size).2.2
      = (List.range size).map (fun i => s.regs (a + i) % 256) := by
    rcases h with ⟨hm, hrange, hsize⟩ | ⟨hm, hcs, hrange⟩
    · rw [readRegs_i2c dev s a size hm hsize]
      refine range_map_congr _ _ size fun i hi => ?_
      rw [show (a + i) % 256 = a + i from Nat.mod_eq_of_lt (by omega)]
    · have hsize : size < 256 := by omega
      have ha64 : a < 64 := by omega
      rw [readRegs_spi dev s a size hm hcs hsize]
      dsimp only
      rw [Nat.mod_eq_of_lt ha64]
      by_cases hgt : 1 < size
      · rw [if_pos hgt, spiOut_mb]
        refine range_map_congr _ _ size fun i hi => ?_
        rw [Nat.zero_add, show (a + i) % 64 = a + i from Nat.mod_eq_of_lt (by omega)]
      · have h1 : size = 1 := by omega
        subst h1
        rw [if_neg hgt]
        rw [show List.range 1 = [0] from rfl]
        simp [spiOut, Nat.mod_eq_of_lt ha64]
  exact ⟨hmain, by rw [hmain]; simp⟩

/-- C5 witness: in I2C mode reading 4 registers from address 50 of a
register file holding `n` at address `n` yields [50, 51, 52, 53]. -/
theorem c5_readRegs_ascending_witness :
    (ADXL345.readRegs ⟨ADXL345_COMM_t.ADXL345_COMM_I2C, 0⟩
        (mkSimState (fun n => n % 256) 0) 50 false 4).2.2
      = (List.range 4).map (fun i => (mkSimState (fun n => n % 256) 0).regs (50 + i) % 256) ∧
    (ADXL345.readRegs ⟨ADXL345_COMM_t.ADXL345_COMM_I2C, 0⟩
        (mkSimState (fun n => n % 256) 0) 50 false 4).2.2.length = 4 :=
  c5_readRegs_ascending ⟨ADXL345_COMM_t.ADXL345_COMM_I2C, 0⟩
    (mkSimState (fun n => n % 256) 0) 50 4 (Or.inl ⟨rfl, by decide, by decide⟩) (by decide)

/-- C5 counterexample: in SPI mode, with a register file holding `n` at
address `n`, reading one register at address 64 stores 0 (the content of
register 0) into slot 0, not register 64's value 64: the SPI command byte
carries only the low 6 address bits.  This refutes the claim for arbitrary
8-bit addresses in SPI mode. -/
theorem c5_readRegs_ascending_counterexample :
    (ADXL345.readRegs ⟨ADXL345_COMM_t.ADXL345_COMM_SPI, 10⟩
        (mkSimState (fun n => n % 256) 10) 64 false 1).2.2 = [0] ∧
    (mkSimState (fun n => n % 256) 10).regs (64 + 0) % 256 = 64 := by
  decide

/-- C6: calling `readRegs` with a NULL buffer pointer is a no-op in every
mode: the handle, the whole simulation state (in particular the trace: no
bus transaction is recorded) are unchanged and no byte is stored. -/
theorem c6_null_buffer_noop (dev : ADXL345) (s : SimState) (a size : Nat) :
    dev.readRegs s a true size = (dev, s, []) := rfl

/-- C7: in I2C mode `writeReg` issues exactly one transaction addressed to
0x53 whose payload is the register address followed by the value (two
bytes), and `readRegs` with a valid buffer issues exactly one address-only
transaction followed by exactly one read request of `count` bytes - the
trace contains precisely these primitive calls and nothing else. -/
theorem c7_i2c_transaction_shape (dev : ADXL345) (s : SimState) (a v size : Nat)
    (hm : dev.communicationType = ADXL345_COMM_t.ADXL345_COMM_I2C)
    (hsize : size < 256) :
    (dev.writeReg s a v).2.trace = s.trace ++ [BusEvent.wireBeginTx 0x53,
      BusEvent.wireWriteEv (a % 256), BusEvent.wireWriteEv (v % 256),
      BusEvent.wireEndTx true] ∧
    (dev.readRegs s a false size).2.1.trace = s.trace ++ [BusEvent.wireBeginTx 0x53,
      BusEvent.wireWriteEv (a % 256), BusEvent.wireEndTx true,
      BusEvent.wireRequestEv 0x53 size true]
      ++ List.replicate size BusEvent.wireReadEv := by
  constructor
  · rw [writeReg_i2c dev s a v hm]
  · rw [readRegs_i2c dev s a size hm hsize]

/-- C7 witness: writing value 7 to register 3 and reading 2 registers from
register 3 produce exactly the claimed traces. -/
theorem c7_i2c_transaction_shape_witness :
    (ADXL345.writeReg ⟨ADXL345_COMM_t.ADXL345_COMM_I2C, 0⟩
        (mkSimState (fun _ => 0) 0) 3 7).2.trace
      = (mkSimState (fun _ => 0) 0).trace ++ [BusEvent.wireBeginTx 0x53,
        BusEvent.wireWriteEv (3 % 256), BusEvent.wireWriteEv (7 % 256),
        BusEvent.wireEndTx true] ∧
    (ADXL345.readRegs ⟨ADXL345_COMM_t.ADXL345_COMM_I2C, 0⟩
        (mkSimState (fun _ => 0) 0) 3 false 2).2.1.trace
      = (mkSimState (fun _ => 0) 0).trace ++ [BusEvent.wireBeginTx 0x53,
        BusEvent.wireWriteEv (3 % 256), BusEvent.wireEndTx true,
        BusEvent.wireRequestEv 0x53 2 true]
        ++ List.replicate 2 BusEvent.wireReadEv :=
  c7_i2c_transaction_shape ⟨ADXL345_COMM_t.ADXL345_COMM_I2C, 0⟩
    (mkSimState (fun _ => 0) 0) 3 7 2 rfl (by decide)

/-- C8: in I2C mode `readReg` begins a transmission to the device, sends the
register-address byte, ends the transmission without releasing the bus
(stop flag false, a repeated start), requests exactly one byte releasing
the bus afterward (stop flag true), reads it, and returns the received
byte - the content of the addressed simulated register. -/
theorem c8_i2c_readReg_sequence (dev : ADXL345) (s : SimState) (a junk : Nat)
    (hm : dev.communicationType = ADXL345_COMM_t.ADXL345_COMM_I2C) :
    (dev.readReg s a junk).2.1.trace = s.trace ++ [BusEvent.wireBeginTx 0x53,
      BusEvent.wireWriteEv (a % 256), BusEvent.wireEndTx false,
      BusEvent.wireRequestEv 0x53 1 true, BusEvent.wireReadEv] ∧
    (dev.readReg s a junk).2.2 = s.regs (a % 256) % 256 := by
  rw [readReg_i2c dev s a junk hm]
  exact ⟨rfl, rfl⟩

/-- C8 witness: reading register 3 of a register file holding `n + 5` at
address `n` returns 8 and produces exactly the claimed trace. -/
theorem c8_i2c_readReg_sequence_witness :
    (ADXL345.readReg ⟨ADXL345_COMM_t.ADXL345_COMM_I2C, 0⟩
        (mkSimState (fun n => (n + 5) % 256) 0) 3 0).2.1.trace
      = (mkSimState (fun n => (n + 5) % 256) 0).trace ++ [BusEvent.wireBeginTx 0x53,
        BusEvent.wireWriteEv (3 % 256), BusEvent.wireEndTx false,
        BusEvent.wireRequestEv 0x53 1 true, BusEvent.wireReadEv] ∧
    (ADXL345.readReg ⟨ADXL345_COMM_t.ADXL345_COMM_I2C, 0⟩
        (mkSimState (fun n => (n + 5) % 256) 0) 3 0).2.2
      = (mkSimState (fun n => (n + 5) % 256) 0).regs (3 % 256) % 256 :=
  c8_i2c_readReg_sequence ⟨ADXL345_COMM_t.ADXL345_COMM_I2C, 0⟩
    (mkSimState (fun n => (n + 5) % 256) 0) 3 0 rfl

/-- C9: the handle's two data members (`communicationType` and the stored
chip-select pin) are never modified by any operation: `writeReg`, `readReg`
and `readRegs` all return the handle they were given, for every mode, every
input and every simulation state. -/
theorem c9_handle_immutable (dev : ADXL345) (s : SimState) (a v junk : Nat)
    (pn : Bool) (size : Nat) :
    (dev.writeReg s a v).1 = dev ∧ (dev.readReg s a junk).1 = dev ∧
    (dev.readRegs s a pn size).1 = dev := by
  refine ⟨?_, ?_, ?_⟩
  · simp only [ADXL345.writeReg]
    split
    · rfl
    · split <;> rfl
  · simp only [ADXL345.readReg]
    split
    · rfl
    · split <;> rfl
  · simp only [ADXL345.readRegs]
    split
    · rfl
    · split
      · rfl
      · split <;> rfl

/-- C10: when the handle's communication mode is neither the I2C nor the
SPI enumerator, `readReg` performs no bus activity at all (the simulation
state, and in particular the trace, is unchanged) and returns the
indeterminate initial value of the uninitialized local `buffer` (modelled
by the `junk` argument, as a byte) - garbage, with no error indication. -/
theorem c10_invalid_mode_returns_junk (dev : ADXL345) (s : SimState) (a junk m : Nat)
    (hm : dev.communicationType = ADXL345_COMM_t.otherValue m) :
    dev.readReg s a junk = (dev, s, junk % 256) := by
  rcases dev with ⟨ct, cs⟩
  simp only [ADXL345.communicationType] at hm
  subst hm
  simp [ADXL345.readReg]

/-- C10 witness: with mode value 7 (out of range), reading register 3 with
uninitialized-local value 300 returns 300 % 256 = 44 and leaves the state
untouched. -/
theorem c10_invalid_mode_returns_junk_witness :
    ADXL345.readReg ⟨ADXL345_COMM_t.otherValue 7, 0⟩ (mkSimState (fun _ => 0) 0) 3 300
      = (⟨ADXL345_COMM_t.otherValue 7, 0⟩, mkSimState (fun _ => 0) 0, 300 % 256) :=
  c10_invalid_mode_returns_junk ⟨ADXL345_COMM_t.otherValue 7, 0⟩
    (mkSimState (fun _ => 0) 0) 3 300 7 rfl

end ADXLSim
